import Mathlib

/-!
Shallow embedding of the siscom-consumer ingestion pipeline
(`src/models/communication_record.rs`, `src/models/device_message.rs`,
`src/services/kafka_consumer.rs`, `src/services/database.rs`,
`src/services/processor.rs`) together with theorems settling the
specification claims about it.

Rust machine values are modelled as follows: `f64` string parsing is
modelled over `ℚ` (the decimal fragment exercised by the pipeline),
`i32`/`i64` as `ℤ` with explicit range checks mirroring Rust's
overflow-rejecting `parse`, `chrono::NaiveDateTime` as a record of
calendar fields, and fallible functions return `Option`/`Except`.
-/

namespace Siscom

/-- Model of `chrono::NaiveDateTime` restricted to the calendar fields
the `%Y-%m-%d %H:%M:%S` format produces. -/
structure NaiveDT where
  year : Nat
  month : Nat
  day : Nat
  hour : Nat
  minute : Nat
  second : Nat
deriving DecidableEq, Repr

/-- Embeds `models/device_message.rs`: `enum Manufacturer { Suntech, Queclink }`. -/
inductive Manufacturer where
  | suntech
  | queclink
deriving DecidableEq, Repr

/-- Embeds `models/device_message.rs`: `struct DeviceMetadata`. -/
structure DeviceMetadata where
  bytes : Int
  client_ip : String
  client_port : Int
  decoded_epoch : Int
  received_epoch : Int
  worker_id : Int
deriving DecidableEq, Repr

/-- Embeds `models/device_message.rs`: `struct DeviceData` (all raw textual fields). -/
structure DeviceData where
  alert : String
  altitude : String
  backup_battery_voltage : String
  backup_battery_percent : String
  cell_id : String
  course : String
  delivery_type : String
  device_id : String
  engine_status : String
  firmware : String
  fix_status : String
  gps_datetime : String
  gps_epoch : String
  idle_time : String
  lac : String
  latitude : String
  longitude : String
  main_battery_voltage : String
  mcc : String
  mnc : String
  model : String
  msg_class : String
  msg_counter : String
  network_status : String
  odometer : String
  rx_lvl : String
  satellites : String
  speed : String
  speed_time : String
  total_distance : String
  trip_distance : String
  trip_hourmeter : String
deriving DecidableEq, Repr

/-- Embeds `models/device_message.rs`: `struct SuntechRaw`. -/
structure SuntechRaw where
  assign_map : String
  axis_y : String
  axis_x : String
  axis_z : String
  cell_id : String
  course : String
  device_id : String
  fix : String
  firmware : String
  gps_date : String
  gps_time : String
  header : String
  idle_time : String
  in_state : String
  lac : String
  latitude : String
  longitude : String
  mcc : String
  mnc : String
  model : String
  mode_map : String
  msg_num : String
  msg_type : String
  net_status : String
  odometer_mts : String
  out_state : String
  report_map : String
  rx_lvl : String
  satellites : String
  speed : String
  speed_time : String
  stt_rpt_type : String
  total_distance : String
  trip_distance : String
  trip_hourmeter : String
  volt_backup : String
  volt_main : String
deriving DecidableEq, Repr

/-- Embeds `SuntechRaw::default()`: every field is the empty string. -/
def SuntechRaw.default : SuntechRaw :=
  ⟨"", "", "", "", "", "", "", "", "", "", "", "", "", "", "", "", "", "",
   "", "", "", "", "", "", "", "", "", "", "", "", "", "", "", "", "", "", ""⟩

/-- Embeds `models/device_message.rs`: `struct QueclinkRaw`. -/
structure QueclinkRaw where
  altitude : String
  cell_id : String
  course : String
  device_id : String
  fix : String
  gps_date_time : String
  header : String
  lac : String
  latitude : String
  longitude : String
  mcc : String
  mnc : String
  msg_num : String
  protocol_version : String
  reserved : String
  send_date_time : String
  speed : String
deriving DecidableEq, Repr

/-- Embeds `models/device_message.rs`: `enum DecodedData`. -/
inductive DecodedData where
  | suntech (suntech_raw : SuntechRaw)
  | queclink (queclink_raw : QueclinkRaw)
deriving DecidableEq, Repr

/-- Embeds `models/device_message.rs`: `struct DeviceMessage`. -/
structure DeviceMessage where
  data : DeviceData
  decoded : DecodedData
  metadata : DeviceMetadata
  raw : String
  uuid : String
deriving DecidableEq, Repr

/-- Embeds `DeviceMessage::get_manufacturer`. -/
def DeviceMessage.get_manufacturer (msg : DeviceMessage) : Manufacturer :=
  match msg.decoded with
  | .suntech _ => .suntech
  | .queclink _ => .queclink

/-- Embeds `models/communication_record.rs`: `struct CommunicationRecord`. -/
structure CommunicationRecord where
  id : Option Int
  uuid : String
  device_id : String
  manufacturer : Option Manufacturer
  backup_battery_voltage : Option ℚ
  backup_battery_percent : Option ℚ
  cell_id : Option String
  course : Option ℚ
  delivery_type : Option String
  engine_status : Option String
  firmware : Option String
  fix_status : Option String
  gps_datetime : Option NaiveDT
  gps_epoch : Option Int
  idle_time : Option Int
  lac : Option String
  latitude : Option ℚ
  longitude : Option ℚ
  main_battery_voltage : Option ℚ
  mcc : Option String
  mnc : Option String
  model : Option String
  msg_class : Option String
  msg_counter : Option Int
  alert_type : Option String
  network_status : Option String
  odometer : Option Int
  rx_lvl : Option Int
  satellites : Option Int
  speed : Option ℚ
  speed_time : Option Int
  total_distance : Option Int
  trip_distance : Option Int
  trip_hourmeter : Option Int
  bytes_count : Option Int
  client_ip : Option String
  client_port : Option Int
  decoded_epoch : Option Int
  received_epoch : Option Int
  raw_message : Option String
  received_at : Option NaiveDT
  created_at : Option NaiveDT
deriving DecidableEq, Repr

/-! ### String-to-number parsing helpers (`communication_record.rs`) -/

/-- Numeric value of a list of decimal digit characters. -/
def natOfDigits (ds : List Char) : Nat :=
  ds.foldl (fun n c => n * 10 + (c.toNat - 48)) 0

/-- Longest prefix of decimal digits, together with the rest. -/
def takeDigits : List Char → List Char × List Char
  | [] => ([], [])
  | c :: cs =>
    if c.isDigit then (c :: (takeDigits cs).1, (takeDigits cs).2)
    else ([], c :: cs)

/-- Leading sign handling of Rust's numeric `FromStr` grammars:
an optional single `+` or `-`; returns (isNegative, rest). -/
def splitSign : List Char → Bool × List Char
  | [] => (false, [])
  | c :: cs =>
    if c = '+' then (false, cs)
    else if c = '-' then (true, cs)
    else (false, c :: cs)

/-- Model of Rust `str::parse::<f64>` on the decimal fragment
`sign? (digits | digits . digits? | . digits)` used by the pipeline. -/
def rustParseFloat (cs : List Char) : Option ℚ :=
  let neg := (splitSign cs).1
  let cs1 := (splitSign cs).2
  let ip := (takeDigits cs1).1
  match (takeDigits cs1).2 with
  | [] =>
    if ip = [] then none
    else some (if neg then -(natOfDigits ip : ℚ) else (natOfDigits ip : ℚ))
  | '.' :: r2 =>
    let fp := (takeDigits r2).1
    if (takeDigits r2).2 = [] then
      if ip = [] ∧ fp = [] then none
      else
        let v : ℚ := (natOfDigits ip : ℚ) + (natOfDigits fp : ℚ) / (10 : ℚ) ^ fp.length
        some (if neg then -v else v)
    else none
  | _ => none

/-- Model of Rust `str::parse` for bounded integers: optional sign,
a non-empty run of digits, nothing else, and the value must lie in
`[lo, hi]` (overflow is a parse error in Rust). -/
def rustParseInt (lo hi : Int) (cs : List Char) : Option Int :=
  let neg := (splitSign cs).1
  let cs1 := (splitSign cs).2
  if cs1 = [] then none
  else if cs1.all Char.isDigit then
    let v : Int := if neg then -(natOfDigits cs1 : Int) else (natOfDigits cs1 : Int)
    if lo ≤ v ∧ v ≤ hi then some v else none
  else none

/-- Embeds `s.strip_prefix('+').unwrap_or(s)` from `parse_f64`. -/
def stripLeadingPlus : List Char → List Char
  | [] => []
  | c :: cs => if c = '+' then cs else c :: cs

/-- Embeds `CommunicationRecord::parse_f64`. -/
def parse_f64 (s : String) : Option ℚ :=
  if s = "" then none
  else rustParseFloat (stripLeadingPlus s.toList)

/-- Embeds `CommunicationRecord::parse_i64`. -/
def parse_i64 (s : String) : Option Int :=
  if s = "" then none
  else rustParseInt (-(2 ^ 63)) (2 ^ 63 - 1) s.toList

/-- Embeds `CommunicationRecord::parse_i32`. -/
def parse_i32 (s : String) : Option Int :=
  if s = "" then none
  else rustParseInt (-(2 ^ 31)) (2 ^ 31 - 1) s.toList

/-! ### `gps_datetime` parsing (`chrono` with format `%Y-%m-%d %H:%M:%S`) -/

/-- Parse a non-empty greedy run of digits into its value. -/
def parseNumField (cs : List Char) : Option (Nat × List Char) :=
  if (takeDigits cs).1 = [] then none
  else some (natOfDigits (takeDigits cs).1, (takeDigits cs).2)

/-- Expect a literal character. -/
def expectCh (c : Char) : List Char → Option (List Char)
  | [] => none
  | x :: xs => if x = c then some xs else none

def isLeapYear (y : Nat) : Bool :=
  (y % 4 == 0 && y % 100 != 0) || y % 400 == 0

def daysInMonth (y m : Nat) : Nat :=
  if m = 2 then (if isLeapYear y then 29 else 28)
  else if m = 4 ∨ m = 6 ∨ m = 9 ∨ m = 11 then 30
  else 31

/-- Model of `chrono::NaiveDateTime::parse_from_str(s, "%Y-%m-%d %H:%M:%S")`:
six numeric fields separated by the literal separators, full input
consumption, and calendar/clock range validation.  `p1` is the year
field with its rest, `p2` the month, `p3` the day, `p4` the hour,
`p5` the minute, `p6` the second. -/
def chronoParseDT (s : String) : Option NaiveDT :=
  (parseNumField s.toList).bind fun p1 =>
  (expectCh '-' p1.2).bind fun r1b =>
  (parseNumField r1b).bind fun p2 =>
  (expectCh '-' p2.2).bind fun r2b =>
  (parseNumField r2b).bind fun p3 =>
  (expectCh ' ' p3.2).bind fun r3b =>
  (parseNumField r3b).bind fun p4 =>
  (expectCh ':' p4.2).bind fun r4b =>
  (parseNumField r4b).bind fun p5 =>
  (expectCh ':' p5.2).bind fun r5b =>
  (parseNumField r5b).bind fun p6 =>
  if p6.2 = [] ∧ 1 ≤ p2.1 ∧ p2.1 ≤ 12 ∧ 1 ≤ p3.1
      ∧ p3.1 ≤ daysInMonth p1.1 p2.1
      ∧ p4.1 ≤ 23 ∧ p5.1 ≤ 59 ∧ p6.1 ≤ 59 then
    some ⟨p1.1, p2.1, p3.1, p4.1, p5.1, p6.1⟩
  else none

/-! ### Row materialization (`CommunicationRecord::from_device_message`) -/

/-- A field-length warning as emitted by `validate_field_length`
(field name, device id, actual length, limit). -/
structure FieldWarning where
  field : String
  device_id : String
  length : Nat
  limit : Nat
deriving DecidableEq, Repr

/-- Embeds `CommunicationRecord::validate_field_length`: warns (returns a
diagnostic) when the value exceeds the limit; never fails. -/
def validate_field_length (field : String) (value : String) (max_len : Nat)
    (device_id : String) : Option FieldWarning :=
  if value.length > max_len then
    some ⟨field, device_id, value.length, max_len⟩
  else none

/-- The warnings emitted by the seven `validate_field_length` calls at
the top of `from_device_message`, in call order. -/
def fieldLengthWarnings (msg : DeviceMessage) : List FieldWarning :=
  ([validate_field_length "cell_id" msg.data.cell_id 10 msg.data.device_id,
    validate_field_length "lac" msg.data.lac 10 msg.data.device_id,
    validate_field_length "mcc" msg.data.mcc 10 msg.data.device_id,
    validate_field_length "mnc" msg.data.mnc 10 msg.data.device_id,
    validate_field_length "model" msg.data.model 50 msg.data.device_id,
    validate_field_length "firmware" msg.data.firmware 50 msg.data.device_id,
    validate_field_length "msg_class" msg.data.msg_class 20 msg.data.device_id]).filterMap id

/-- Embeds `CommunicationRecord::from_device_message`.  `now` stands for
`Utc::now().naive_utc()` sampled inside the function. -/
def from_device_message (now : NaiveDT) (msg : DeviceMessage) :
    Except String CommunicationRecord :=
  let gps_datetime :=
    if msg.data.gps_datetime ≠ "" then chronoParseDT msg.data.gps_datetime
    else none
  let client_ip :=
    if msg.metadata.client_ip = "" then none
    else some msg.metadata.client_ip
  Except.ok
    { id := none
      uuid := msg.uuid
      device_id := msg.data.device_id
      manufacturer := some msg.get_manufacturer
      backup_battery_voltage := parse_f64 msg.data.backup_battery_voltage
      backup_battery_percent := parse_f64 msg.data.backup_battery_percent
      cell_id := some msg.data.cell_id
      course := parse_f64 msg.data.course
      delivery_type := some msg.data.delivery_type
      engine_status := some msg.data.engine_status
      firmware := some msg.data.firmware
      fix_status := some msg.data.fix_status
      gps_datetime := gps_datetime
      gps_epoch := parse_i64 msg.data.gps_epoch
      idle_time := parse_i32 msg.data.idle_time
      lac := some msg.data.lac
      latitude := parse_f64 msg.data.latitude
      longitude := parse_f64 msg.data.longitude
      main_battery_voltage := parse_f64 msg.data.main_battery_voltage
      mcc := some msg.data.mcc
      mnc := some msg.data.mnc
      model := some msg.data.model
      msg_class := some msg.data.msg_class
      msg_counter := parse_i32 msg.data.msg_counter
      alert_type := if msg.data.alert = "" then none else some msg.data.alert
      network_status := some msg.data.network_status
      odometer := parse_i64 msg.data.odometer
      rx_lvl := parse_i32 msg.data.rx_lvl
      satellites := parse_i32 msg.data.satellites
      speed := parse_f64 msg.data.speed
      speed_time := parse_i32 msg.data.speed_time
      total_distance := parse_i64 msg.data.total_distance
      trip_distance := parse_i64 msg.data.trip_distance
      trip_hourmeter := parse_i32 msg.data.trip_hourmeter
      bytes_count := some msg.metadata.bytes
      client_ip := client_ip
      client_port := some msg.metadata.client_port
      decoded_epoch := some msg.metadata.decoded_epoch
      received_epoch := some msg.metadata.received_epoch
      raw_message := some msg.raw
      received_at := some now
      created_at := some now }

/-! ### The protobuf decoder (`services/kafka_consumer.rs`) -/

/-- The `metadata` sub-message of the protobuf `KafkaMessage`. -/
structure KafkaMetadata where
  bytes : Int
  client_ip : String
  client_port : Int
  decoded_epoch : Int
  received_epoch : Int
  worker_id : Int
deriving DecidableEq, Repr

/-- The `decoded` oneof of the protobuf `KafkaMessage`: a Suntech or a
Queclink sub-message, each carrying a string-to-string field map. -/
inductive KafkaDecoded where
  | suntech (fields : List (String × String))
  | queclink (fields : List (String × String))
deriving DecidableEq, Repr

/-- The protobuf `KafkaMessage` (`config::siscom::KafkaMessage`):
a flat `data` map, an optional `metadata` sub-message, an optional
`decoded` variant, plus `raw` and `uuid`. -/
structure KafkaMessage where
  data : List (String × String)
  metadata : Option KafkaMetadata
  decoded : Option KafkaDecoded
  raw : String
  uuid : String
deriving DecidableEq, Repr

/-- Embeds `map.get(key).cloned().unwrap_or_default()`. -/
def mapGetD (m : List (String × String)) (k : String) : String :=
  (m.lookup k).getD ""

/-- The `SuntechRaw` construction from a Suntech `fields` map in
`kafka_message_to_device_message`. -/
def suntechRawOfFields (f : List (String × String)) : SuntechRaw :=
  { assign_map := mapGetD f "ASSIGN_MAP"
    axis_x := mapGetD f "AXIS_X"
    axis_y := mapGetD f "AXIST_Y"
    axis_z := mapGetD f "AXIS_Z"
    cell_id := mapGetD f "CELL_ID"
    course := mapGetD f "CRS"
    device_id := mapGetD f "DEVICE_ID"
    fix := mapGetD f "FIX"
    firmware := mapGetD f "FW"
    gps_date := mapGetD f "GPS_DATE"
    gps_time := mapGetD f "GPS_TIME"
    header := mapGetD f "HEADER"
    idle_time := mapGetD f "IDLE_TIME"
    in_state := mapGetD f "IN_STATE"
    lac := mapGetD f "LAC"
    latitude := mapGetD f "LAT"
    longitude := mapGetD f "LON"
    mcc := mapGetD f "MCC"
    mnc := mapGetD f "MNC"
    model := mapGetD f "MODEL"
    mode_map := mapGetD f "MODE_MAP"
    msg_num := mapGetD f "MSG_NUM"
    msg_type := mapGetD f "MSG_TYPE"
    net_status := mapGetD f "NET_STATUS"
    odometer_mts := mapGetD f "ODOMETER_MTS"
    out_state := mapGetD f "OUT_STATE"
    report_map := mapGetD f "REPORT_MAP"
    rx_lvl := mapGetD f "RX_LVL"
    satellites := mapGetD f "SAT"
    speed := mapGetD f "SPD"
    speed_time := mapGetD f "SPEED_TIME"
    stt_rpt_type := mapGetD f "STT_RPT_TYPE"
    total_distance := mapGetD f "TOTAL_DISTANCE"
    trip_distance := mapGetD f "TRIP_DISTANCE"
    trip_hourmeter := mapGetD f "TRIP_HOURMETER"
    volt_backup := mapGetD f "VOLT_BACKUP"
    volt_main := mapGetD f "VOLT_MAIN" }

/-- The `QueclinkRaw` construction from a Queclink `fields` map in
`kafka_message_to_device_message`. -/
def queclinkRawOfFields (f : List (String × String)) : QueclinkRaw :=
  { altitude := mapGetD f "ALTITUDE"
    cell_id := mapGetD f "CELL_ID"
    course := mapGetD f "CRS"
    device_id := mapGetD f "DEVICE_ID"
    fix := mapGetD f "FIX"
    gps_date_time := mapGetD f "GPS_DATE_TIME"
    header := mapGetD f "HEADER"
    lac := mapGetD f "LAC"
    latitude := mapGetD f "LAT"
    longitude := mapGetD f "LON"
    mcc := mapGetD f "MCC"
    mnc := mapGetD f "MNC"
    msg_num := mapGetD f "MSG_NUM"
    protocol_version := mapGetD f "PROTOCOL_VERSION"
    reserved := mapGetD f "RESERVED"
    send_date_time := mapGetD f "SEND_DATE_TIME"
    speed := mapGetD f "SPD" }

/-- Embeds `KafkaConsumerService::kafka_message_to_device_message`. -/
def kafka_message_to_device_message (kafka_msg : KafkaMessage) :
    Except String DeviceMessage :=
  match kafka_msg.metadata with
  | none => Except.error "Missing metadata in KafkaMessage"
  | some metadata =>
    let data_map := kafka_msg.data
    Except.ok
      { data :=
          { alert := mapGetD data_map "ALERT"
            altitude := mapGetD data_map "ALTITUDE"
            backup_battery_voltage := mapGetD data_map "BACKUP_BATTERY_VOLTAGE"
            backup_battery_percent := mapGetD data_map "PERCENT_BACKUP"
            cell_id := mapGetD data_map "CELL_ID"
            course := mapGetD data_map "COURSE"
            delivery_type := mapGetD data_map "DELIVERY_TYPE"
            device_id := mapGetD data_map "DEVICE_ID"
            engine_status := mapGetD data_map "ENGINE_STATUS"
            firmware := mapGetD data_map "FIRMWARE"
            fix_status := mapGetD data_map "FIX_"
            gps_datetime := mapGetD data_map "GPS_DATETIME"
            gps_epoch := mapGetD data_map "GPS_EPOCH"
            idle_time := mapGetD data_map "IDLE_TIME"
            lac := mapGetD data_map "LAC"
            latitude := mapGetD data_map "LATITUD"
            longitude := mapGetD data_map "LONGITUD"
            main_battery_voltage := mapGetD data_map "MAIN_BATTERY_VOLTAGE"
            mcc := mapGetD data_map "MCC"
            mnc := mapGetD data_map "MNC"
            model := mapGetD data_map "MODEL"
            msg_class := mapGetD data_map "MSG_CLASS"
            msg_counter := mapGetD data_map "MSG_COUNTER"
            network_status := mapGetD data_map "NETWORK_STATUS"
            odometer := mapGetD data_map "ODOMETER"
            rx_lvl := mapGetD data_map "RX_LVL"
            satellites := mapGetD data_map "SATELLITES"
            speed := mapGetD data_map "SPEED"
            speed_time := mapGetD data_map "SPEED_TIME"
            total_distance := mapGetD data_map "TOTAL_DISTANCE"
            trip_distance := mapGetD data_map "TRIP_DISTANCE"
            trip_hourmeter := mapGetD data_map "TRIP_HOURMETER" }
        decoded :=
          match kafka_msg.decoded with
          | some (.suntech fields) => .suntech (suntechRawOfFields fields)
          | some (.queclink fields) => .queclink (queclinkRawOfFields fields)
          | none => .suntech SuntechRaw.default
        metadata :=
          { bytes := metadata.bytes
            client_ip := metadata.client_ip
            client_port := metadata.client_port
            decoded_epoch := metadata.decoded_epoch
            received_epoch := metadata.received_epoch
            worker_id := metadata.worker_id }
        raw := kafka_msg.raw
        uuid := kafka_msg.uuid }

/-! ### The Store (`services/database.rs`)

The database side is modelled as a trace of operations issued over the
connection: transaction begin/commit and the individual multi-row
`INSERT` statements.  A separate interpreter `applyOps` gives the
PostgreSQL meaning of a trace: statements mutate an uncommitted working
copy, which becomes visible only at `commit`; a transaction dropped
without commit (the code's error path returns before `tx.commit()`)
leaves the database unchanged. -/

/-- Table-name selection in `batch_insert`. -/
def tableName : Manufacturer → String
  | .suntech => "communications_suntech"
  | .queclink => "communications_queclink"

/-- Recursion core of `chunksOf`, structurally recursive on a fuel
argument; the wrapper passes the list length as fuel, which always
suffices since every step consumes at least one element. -/
def chunksOfAux (n : Nat) : Nat → List α → List (List α)
  | _, [] => []
  | 0, rest => [rest]
  | fuel + 1, x :: xs => (x :: xs.take (n - 1)) :: chunksOfAux n fuel (xs.drop (n - 1))

/-- Embeds `records.chunks(CHUNK_SIZE)` with `CHUNK_SIZE = 100`:
split into consecutive chunks of at most `n` elements (`n > 0`). -/
def chunksOf (n : Nat) (l : List α) : List (List α) :=
  chunksOfAux n l.length l

/-- The per-row diagnostic logged for every row of a failing chunk:
`device_id`, `uuid`, and the character lengths of `cell_id`, `lac`,
`mcc`, `mnc`. -/
structure RowDiag where
  device_id : String
  uuid : String
  cell_id_len : Nat
  lac_len : Nat
  mcc_len : Nat
  mnc_len : Nat
deriving DecidableEq, Repr

/-- The diagnostic record logged for one row in the failure branch of
`fallback_batch_insert` / `fallback_batch_insert_current`. -/
def rowDiag (r : CommunicationRecord) : RowDiag :=
  { device_id := r.device_id
    uuid := r.uuid
    cell_id_len := ((r.cell_id.map String.length).getD 0)
    lac_len := ((r.lac.map String.length).getD 0)
    mcc_len := ((r.mcc.map String.length).getD 0)
    mnc_len := ((r.mnc.map String.length).getD 0) }

/-- Operations issued on the database connection. -/
inductive DbOp where
  | beginTx
  | execHistory (table : String) (chunk : List CommunicationRecord)
  | execCurrent (chunk : List CommunicationRecord)
  | commitTx
deriving DecidableEq, Repr

/-- A propagated statement failure: the failing statement together with
the per-row diagnostics logged for its chunk. -/
structure StmtFailure where
  op : DbOp
  diags : List RowDiag
deriving DecidableEq, Repr

/-- Execute a list of chunks as statements (`mk c` builds the statement
for chunk `c`).  `fails` is the environment's failure oracle for a
statement.  Mirrors the chunk loops of `fallback_batch_insert` /
`fallback_batch_insert_current`: statements run in order; on the first
failing statement the per-row diagnostics of that chunk are produced
and the error is returned, abandoning the remaining chunks. -/
def execChunks (fails : DbOp → Bool) (mk : List CommunicationRecord → DbOp) :
    List (List CommunicationRecord) → List DbOp × Option StmtFailure
  | [] => ([], none)
  | c :: rest =>
    if fails (mk c) then ([], some ⟨mk c, c.map rowDiag⟩)
    else (mk c :: (execChunks fails mk rest).1, (execChunks fails mk rest).2)

/-- Embeds `DatabaseService::fallback_batch_insert`: history-table chunks of
100 rows. -/
def fallback_batch_insert (fails : DbOp → Bool)
    (records : List CommunicationRecord) (table : String) :
    List DbOp × Option StmtFailure :=
  execChunks fails (DbOp.execHistory table) (chunksOf 100 records)

/-- Embeds `DatabaseService::fallback_batch_insert_current`: current-state
chunks of 100 rows. -/
def fallback_batch_insert_current (fails : DbOp → Bool)
    (records : List CommunicationRecord) :
    List DbOp × Option StmtFailure :=
  execChunks fails DbOp.execCurrent (chunksOf 100 records)

/-- Embeds `DatabaseService::batch_insert`: on a non-empty record list, begin
a transaction, run the history chunks, then the current-state chunks,
then commit; an error from either phase returns before the commit. -/
def batch_insert (fails : DbOp → Bool)
    (records : List CommunicationRecord) (manufacturer : Manufacturer) :
    List DbOp × Option StmtFailure :=
  if records = [] then ([], none)
  else
    let hist := fallback_batch_insert fails records (tableName manufacturer)
    match hist.2 with
    | some f => (DbOp.beginTx :: hist.1, some f)
    | none =>
      let cur := fallback_batch_insert_current fails records
      match cur.2 with
      | some f => (DbOp.beginTx :: (hist.1 ++ cur.1), some f)
      | none => (DbOp.beginTx :: (hist.1 ++ cur.1 ++ [DbOp.commitTx]), none)

/-- Embeds `DatabaseService::insert_records_by_manufacturer`: insert the
Suntech records if any, then the Queclink records if any; the `?`
operator propagates the first error. -/
def insert_records_by_manufacturer (fails : DbOp → Bool)
    (suntech_records queclink_records : List CommunicationRecord) :
    List DbOp × Option StmtFailure :=
  let res1 :=
    if suntech_records = [] then (([] : List DbOp), (none : Option StmtFailure))
    else batch_insert fails suntech_records .suntech
  match res1.2 with
  | some f => (res1.1, some f)
  | none =>
    let res2 :=
      if queclink_records = [] then (([] : List DbOp), (none : Option StmtFailure))
      else batch_insert fails queclink_records .queclink
    (res1.1 ++ res2.1, res2.2)

/-- One step of the grouping loop in `DatabaseService::flush_buffer`:
a Suntech record goes to the first list, a Queclink record to the
second, and a record with no manufacturer is warned about and pushed to
the Suntech list. -/
def groupStep (acc : List CommunicationRecord × List CommunicationRecord)
    (r : CommunicationRecord) :
    List CommunicationRecord × List CommunicationRecord :=
  match r.manufacturer with
  | some .suntech => (acc.1 ++ [r], acc.2)
  | some .queclink => (acc.1, acc.2 ++ [r])
  | none => (acc.1 ++ [r], acc.2)

/-- Grouping loop of `DatabaseService::flush_buffer`: partition the
buffered records by manufacturer. -/
def groupByManufacturer (records : List CommunicationRecord) :
    List CommunicationRecord × List CommunicationRecord :=
  records.foldl groupStep ([], [])

/-- Embeds `DatabaseService::flush_buffer` on a drained buffer: group by
manufacturer and call `insert_records_by_manufacturer`. -/
def flush_buffer (fails : DbOp → Bool) (records : List CommunicationRecord) :
    List DbOp × Option StmtFailure :=
  let (suntech_records, queclink_records) := groupByManufacturer records
  insert_records_by_manufacturer fails suntech_records queclink_records

/-! ### PostgreSQL semantics of a trace -/

/-- Database state: the two append-only history tables and the
current-state table (a row list with at most one row per
`(device_id, msg_class)` key). -/
structure DBState where
  suntech : List CommunicationRecord
  queclink : List CommunicationRecord
  current : List CommunicationRecord
deriving DecidableEq, Repr

/-- The upsert key of the current-state table. -/
def stateKey (r : CommunicationRecord) : String × Option String :=
  (r.device_id, r.msg_class)

/-- The `ON CONFLICT ... DO UPDATE` merge of `fallback_batch_insert_current`:
every column is taken from the candidate (`EXCLUDED`) row except
`received_at`, set to the server's `NOW()`; `created_at` comes from the
candidate.  (`device_id` and `msg_class` are equal on both sides by the
conflict condition.) -/
def mergeOnConflict (now : NaiveDT) (candidate : CommunicationRecord) :
    CommunicationRecord :=
  { candidate with received_at := some now }

/-- Insert one row into the current-state table with upsert semantics. -/
def upsertRow (now : NaiveDT) (cur : List CommunicationRecord)
    (r : CommunicationRecord) : List CommunicationRecord :=
  if cur.any (fun x => stateKey x = stateKey r) then
    cur.map (fun x => if stateKey x = stateKey r then mergeOnConflict now r else x)
  else cur ++ [r]

/-- Apply one successfully executed statement to a (working) state. -/
def applyStmt (now : NaiveDT) (st : DBState) : DbOp → DBState
  | .execHistory table chunk =>
    if table = "communications_suntech" then { st with suntech := st.suntech ++ chunk }
    else if table = "communications_queclink" then { st with queclink := st.queclink ++ chunk }
    else st
  | .execCurrent chunk => { st with current := chunk.foldl (upsertRow now) st.current }
  | _ => st

/-- Interpret a trace: `committed` is the visible database, `working`
the state of the open transaction.  Statements mutate `working`;
`commit` publishes it; a trace ending without commit leaves `committed`
untouched (rollback on drop). -/
def applyOpsAux (now : NaiveDT) (committed working : DBState) :
    List DbOp → DBState
  | [] => committed
  | .beginTx :: rest => applyOpsAux now committed committed rest
  | .commitTx :: rest => applyOpsAux now working working rest
  | op :: rest => applyOpsAux now committed (applyStmt now working op) rest

/-- The visible database after running a trace from state `st`. -/
def applyOps (now : NaiveDT) (st : DBState) (ops : List DbOp) : DBState :=
  applyOpsAux now st st ops

/-! ### The upsert SQL of `fallback_batch_insert_current` as data -/

/-- The positional insert column list shared by the history and
current-state `INSERT` statements. -/
def insertColumns : List String :=
  ["uuid", "device_id", "backup_battery_voltage", "backup_battery_percent",
   "cell_id", "course", "delivery_type", "engine_status", "firmware",
   "fix_status", "gps_datetime", "gps_epoch", "idle_time", "lac", "latitude",
   "longitude", "main_battery_voltage", "mcc", "mnc", "model", "msg_class",
   "msg_counter", "alert_type", "network_status", "odometer", "rx_lvl",
   "satellites", "speed", "speed_time", "total_distance", "trip_distance",
   "trip_hourmeter", "bytes_count", "client_ip", "client_port",
   "decoded_epoch", "received_epoch", "raw_message", "received_at",
   "created_at"]

/-- The right-hand side of one `SET` assignment in the
`ON CONFLICT (device_id, msg_class) DO UPDATE` clause. -/
inductive UpdateSource where
  | excluded
  | nowFn
deriving DecidableEq, Repr

/-- The `DO UPDATE SET` assignment list of the current-state upsert,
transcribed in statement order. -/
def onConflictSet : List (String × UpdateSource) :=
  [("uuid", .excluded), ("backup_battery_voltage", .excluded),
   ("backup_battery_percent", .excluded), ("cell_id", .excluded),
   ("course", .excluded), ("delivery_type", .excluded),
   ("engine_status", .excluded), ("firmware", .excluded),
   ("fix_status", .excluded), ("gps_datetime", .excluded),
   ("gps_epoch", .excluded), ("idle_time", .excluded), ("lac", .excluded),
   ("latitude", .excluded), ("longitude", .excluded),
   ("main_battery_voltage", .excluded), ("mcc", .excluded),
   ("mnc", .excluded), ("model", .excluded), ("msg_class", .excluded),
   ("msg_counter", .excluded), ("alert_type", .excluded),
   ("network_status", .excluded), ("odometer", .excluded),
   ("rx_lvl", .excluded), ("satellites", .excluded), ("speed", .excluded),
   ("speed_time", .excluded), ("total_distance", .excluded),
   ("trip_distance", .excluded), ("trip_hourmeter", .excluded),
   ("bytes_count", .excluded), ("client_ip", .excluded),
   ("client_port", .excluded), ("decoded_epoch", .excluded),
   ("received_epoch", .excluded), ("raw_message", .excluded),
   ("received_at", .nowFn), ("created_at", .excluded)]

/-! ### The batch-processing loop (`services/processor.rs`)

`batch_processing_loop` is modelled as a fold over a list of events
(inbound message or flush-timer tick) acting on the loop state.  The
batch element type is abstract (`α`): the loop never inspects messages.
`process_batch` ignores the result of the Store call except for
logging, and unconditionally clears the batch; `fail i` says whether
the `i`-th Store call returns an error. -/

/-- An event observed by the `tokio::select!` loop: an inbound message
or a flush-timer tick. -/
inductive BatchEvent (α : Type) where
  | msg (m : α)
  | tick
deriving DecidableEq, Repr

/-- Loop state: the in-memory batch, the batches handed to the Store in
order, the batch lengths at size-triggered and at all `process_batch`
invocations, and the indices of Store calls whose error was logged. -/
structure LoopState (α : Type) where
  batch : List α
  flushed : List (List α)
  sizeFlushLens : List Nat
  allFlushLens : List Nat
  errorLog : List Nat
deriving DecidableEq, Repr

/-- Embeds `MessageProcessor::process_batch`: early-return on an empty batch;
otherwise hand the batch to the Store, log a failure, and clear the
batch regardless of the outcome. -/
def process_batch (fail : Nat → Bool) (st : LoopState α) : LoopState α :=
  if st.batch.isEmpty then st
  else
    { batch := []
      flushed := st.flushed ++ [st.batch]
      sizeFlushLens := st.sizeFlushLens
      allFlushLens := st.allFlushLens ++ [st.batch.length]
      errorLog :=
        if fail st.flushed.length then st.errorLog ++ [st.flushed.length]
        else st.errorLog }

/-- One iteration of `batch_processing_loop`: append an inbound message
and flush immediately when the batch has reached `batch_size`; on a
timer tick flush only a non-empty batch. -/
def stepLoop (batch_size : Nat) (fail : Nat → Bool) (st : LoopState α) :
    BatchEvent α → LoopState α
  | .msg m =>
    let b := st.batch ++ [m]
    if batch_size ≤ b.length then
      process_batch fail
        { st with batch := b, sizeFlushLens := st.sizeFlushLens ++ [b.length] }
    else { st with batch := b }
  | .tick =>
    if st.batch.isEmpty then st else process_batch fail st

/-- The initial loop state. -/
def initLoop : LoopState α := ⟨[], [], [], [], []⟩

/-- Embeds `batch_processing_loop` over a finite event trace. -/
def runLoop (batch_size : Nat) (fail : Nat → Bool)
    (events : List (BatchEvent α)) : LoopState α :=
  events.foldl (stepLoop batch_size fail) initLoop

/-- The messages carried by an event trace, in order. -/
def eventMessages : List (BatchEvent α) → List α
  | [] => []
  | .msg m :: rest => m :: eventMessages rest
  | .tick :: rest => eventMessages rest

/-! ### Concrete fixtures -/

/-- A `DeviceData` with every raw field empty. -/
def emptyDeviceData : DeviceData :=
  ⟨"", "", "", "", "", "", "", "", "", "", "", "", "", "", "", "",
   "", "", "", "", "", "", "", "", "", "", "", "", "", "", "", ""⟩

def emptyDeviceMetadata : DeviceMetadata := ⟨0, "", 0, 0, 0, 0⟩

/-- A minimal decoded device message. -/
def testMsg0 : DeviceMessage :=
  ⟨emptyDeviceData, .suntech SuntechRaw.default, emptyDeviceMetadata, "", ""⟩

def epochDT : NaiveDT := ⟨1970, 1, 1, 0, 0, 0⟩

/-- A communication record with every optional field absent. -/
def blankRecord : CommunicationRecord :=
  { id := none, uuid := "", device_id := "", manufacturer := none
    backup_battery_voltage := none, backup_battery_percent := none
    cell_id := none, course := none, delivery_type := none
    engine_status := none, firmware := none, fix_status := none
    gps_datetime := none, gps_epoch := none, idle_time := none
    lac := none, latitude := none, longitude := none
    main_battery_voltage := none, mcc := none, mnc := none, model := none
    msg_class := none, msg_counter := none, alert_type := none
    network_status := none, odometer := none, rx_lvl := none
    satellites := none, speed := none, speed_time := none
    total_distance := none, trip_distance := none, trip_hourmeter := none
    bytes_count := none, client_ip := none, client_port := none
    decoded_epoch := none, received_epoch := none, raw_message := none
    received_at := none, created_at := none }

/-- A Suntech-tagged record. -/
def recS : CommunicationRecord :=
  { blankRecord with uuid := "u-s", device_id := "dev-s",
                     manufacturer := some .suntech }

/-- A Queclink-tagged record. -/
def recQ : CommunicationRecord :=
  { blankRecord with uuid := "u-q", device_id := "dev-q",
                     manufacturer := some .queclink }

/-- A buffered record with no manufacturer and empty identity fields. -/
def recNoMfr : CommunicationRecord := blankRecord

/-- The empty database. -/
def emptyDB : DBState := ⟨[], [], []⟩

/-- A minimal protobuf message: metadata present, no data keys, no
decoded variant. -/
def testKafkaMsg : KafkaMessage :=
  ⟨[], some ⟨0, "", 0, 0, 0, 0⟩, none, "", ""⟩

/-- A device message whose `cell_id` exceeds its 10-character limit. -/
def longCellMsg : DeviceMessage :=
  ⟨{ emptyDeviceData with cell_id := "123456789012" },
   .suntech SuntechRaw.default, emptyDeviceMetadata, "", ""⟩

/-! ## Claim C4: the ON CONFLICT update clause -/

/-- C4 counterexample: `device_id` is in the insert column list of the
current-state statement but has no assignment in the
`ON CONFLICT (device_id, msg_class) DO UPDATE SET` clause, so it is not
true that every column of the insert column list is updated on
conflict. -/
theorem C4_device_id_not_updated :
    "device_id" ∈ insertColumns ∧ onConflictSet.lookup "device_id" = none := by
  decide

/-- C4 (amended): every column of the insert column list except
`device_id` is updated on conflict, each set to the candidate
(`EXCLUDED`) value, except `received_at` which is set to the database
server's `NOW()`; in particular `created_at` is taken from the
candidate row. -/
theorem C4_upsert_update_sources :
    ∀ c ∈ insertColumns, c ≠ "device_id" →
      onConflictSet.lookup c =
        some (if c = "received_at" then UpdateSource.nowFn
              else UpdateSource.excluded) := by
  decide

/-- Witness for `C4_upsert_update_sources` at the column `created_at`. -/
theorem C4_upsert_update_sources_witness :
    onConflictSet.lookup "created_at" =
      some (if "created_at" = "received_at" then UpdateSource.nowFn
            else UpdateSource.excluded) :=
  C4_upsert_update_sources "created_at" (by decide) (by decide)

/-! ## Claim C8: decoder totality and defaults -/

/-- The canonical data keys and the `DeviceData` field each one feeds,
as read in `kafka_message_to_device_message`. -/
def canonicalFields : List (String × (DeviceData → String)) :=
  [("ALERT", DeviceData.alert), ("ALTITUDE", DeviceData.altitude),
   ("BACKUP_BATTERY_VOLTAGE", DeviceData.backup_battery_voltage),
   ("PERCENT_BACKUP", DeviceData.backup_battery_percent),
   ("CELL_ID", DeviceData.cell_id), ("COURSE", DeviceData.course),
   ("DELIVERY_TYPE", DeviceData.delivery_type),
   ("DEVICE_ID", DeviceData.device_id),
   ("ENGINE_STATUS", DeviceData.engine_status),
   ("FIRMWARE", DeviceData.firmware), ("FIX_", DeviceData.fix_status),
   ("GPS_DATETIME", DeviceData.gps_datetime),
   ("GPS_EPOCH", DeviceData.gps_epoch), ("IDLE_TIME", DeviceData.idle_time),
   ("LAC", DeviceData.lac), ("LATITUD", DeviceData.latitude),
   ("LONGITUD", DeviceData.longitude),
   ("MAIN_BATTERY_VOLTAGE", DeviceData.main_battery_voltage),
   ("MCC", DeviceData.mcc), ("MNC", DeviceData.mnc),
   ("MODEL", DeviceData.model), ("MSG_CLASS", DeviceData.msg_class),
   ("MSG_COUNTER", DeviceData.msg_counter),
   ("NETWORK_STATUS", DeviceData.network_status),
   ("ODOMETER", DeviceData.odometer), ("RX_LVL", DeviceData.rx_lvl),
   ("SATELLITES", DeviceData.satellites), ("SPEED", DeviceData.speed),
   ("SPEED_TIME", DeviceData.speed_time),
   ("TOTAL_DISTANCE", DeviceData.total_distance),
   ("TRIP_DISTANCE", DeviceData.trip_distance),
   ("TRIP_HOURMETER", DeviceData.trip_hourmeter)]

/-- C8: the decoder fails exactly when the metadata sub-message is
absent; with metadata present it succeeds, every missing canonical data
key resolves to the empty string, and a missing decoded variant yields
a Suntech observation with the default (all-empty) raw block. -/
theorem C8_decoder_contract (k : KafkaMessage) :
    ((∃ dm, kafka_message_to_device_message k = .ok dm) ↔ k.metadata ≠ none)
    ∧ (∀ dm, kafka_message_to_device_message k = .ok dm →
        (∀ p ∈ canonicalFields, k.data.lookup p.1 = none → p.2 dm.data = "")
        ∧ (k.decoded = none → dm.decoded = .suntech SuntechRaw.default)) := by
  cases hm : k.metadata with
  | none =>
    constructor
    · simp [kafka_message_to_device_message, hm]
    · intro dm hdm
      simp [kafka_message_to_device_message, hm] at hdm
  | some md =>
    constructor
    · simp [kafka_message_to_device_message, hm]
    · intro dm hdm
      simp only [kafka_message_to_device_message, hm, Except.ok.injEq] at hdm
      subst hdm
      constructor
      · intro p hp
        fin_cases hp <;> (intro h; simp [mapGetD, h])
      · intro h
        simp [h]

/-- Witness for `C8_decoder_contract`: a concrete message with metadata
present, no data keys and no decoded variant decodes to an observation
with empty `alert` and a default Suntech raw block. -/
theorem C8_decoder_contract_witness :
    (kafka_message_to_device_message testKafkaMsg).toOption.map
        (fun dm => (dm.data.alert, dm.decoded))
      = some ("", .suntech SuntechRaw.default) := by
  cases hk : kafka_message_to_device_message testKafkaMsg with
  | error e =>
    exact absurd hk (by simp [kafka_message_to_device_message, testKafkaMsg])
  | ok dm =>
    have h2 := (C8_decoder_contract testKafkaMsg).2 dm hk
    have hmem : ("ALERT", DeviceData.alert) ∈ canonicalFields := by
      unfold canonicalFields
      exact List.mem_cons_self _ _
    have ha := h2.1 ("ALERT", DeviceData.alert) hmem rfl
    have hd := h2.2 rfl
    have ha2 : dm.data.alert = "" := ha
    show some (dm.data.alert, dm.decoded)
      = some ("", DecodedData.suntech SuntechRaw.default)
    rw [ha2, hd]

/-! ## Claim C9: length validation warns and never modifies or rejects -/

/-- C9: `from_device_message` never returns an error; each
length-bounded text field is stored as the unchanged input string, and
an over-long value only produces a warning diagnostic. -/
theorem C9_length_validation (now : NaiveDT) (msg : DeviceMessage) :
    (∃ r, from_device_message now msg = .ok r)
    ∧ (∀ r, from_device_message now msg = .ok r →
        r.cell_id = some msg.data.cell_id ∧ r.lac = some msg.data.lac
        ∧ r.mcc = some msg.data.mcc ∧ r.mnc = some msg.data.mnc
        ∧ r.model = some msg.data.model ∧ r.firmware = some msg.data.firmware
        ∧ r.msg_class = some msg.data.msg_class)
    ∧ (msg.data.cell_id.length > 10 →
        (⟨"cell_id", msg.data.device_id, msg.data.cell_id.length, 10⟩ : FieldWarning)
          ∈ fieldLengthWarnings msg)
    ∧ (msg.data.model.length > 50 →
        (⟨"model", msg.data.device_id, msg.data.model.length, 50⟩ : FieldWarning)
          ∈ fieldLengthWarnings msg)
    ∧ (msg.data.msg_class.length > 20 →
        (⟨"msg_class", msg.data.device_id, msg.data.msg_class.length, 20⟩ : FieldWarning)
          ∈ fieldLengthWarnings msg) := by
  refine ⟨⟨_, rfl⟩, ?_, ?_, ?_, ?_⟩
  · intro r hr
    simp only [from_device_message, Except.ok.injEq] at hr
    subst hr
    exact ⟨rfl, rfl, rfl, rfl, rfl, rfl, rfl⟩
  · intro h
    simp [fieldLengthWarnings, validate_field_length, h]
  · intro h
    simp [fieldLengthWarnings, validate_field_length, h]
  · intro h
    simp [fieldLengthWarnings, validate_field_length, h]

/-- Witness for `C9_length_validation`: a message with a 12-character
`cell_id` is accepted, the stored `cell_id` is the unchanged input, and
the over-length warning is emitted. -/
theorem C9_length_validation_witness :
    (∃ r, from_device_message epochDT longCellMsg = .ok r)
    ∧ (⟨"cell_id", "", 12, 10⟩ : FieldWarning) ∈ fieldLengthWarnings longCellMsg := by
  have h := C9_length_validation epochDT longCellMsg
  refine ⟨h.1, ?_⟩
  have := h.2.2.1 (by decide)
  simpa [longCellMsg, emptyDeviceData] using this

/-! ## Claim C10: exactly the alert and client_ip text fields are
none-on-empty -/

/-- C10: in every produced record, `alert_type` and `client_ip` are
absent exactly when their input strings are empty, while the other text
fields are always stored as present values equal to the input (an empty
input string is stored as an empty string, not as null). -/
theorem C10_none_on_empty_fields (now : NaiveDT) (msg : DeviceMessage)
    (r : CommunicationRecord) (h : from_device_message now msg = .ok r) :
    (r.alert_type = none ↔ msg.data.alert = "")
    ∧ (r.client_ip = none ↔ msg.metadata.client_ip = "")
    ∧ r.cell_id = some msg.data.cell_id ∧ r.lac = some msg.data.lac
    ∧ r.mcc = some msg.data.mcc ∧ r.mnc = some msg.data.mnc
    ∧ r.model = some msg.data.model ∧ r.firmware = some msg.data.firmware
    ∧ r.msg_class = some msg.data.msg_class
    ∧ r.delivery_type = some msg.data.delivery_type
    ∧ r.engine_status = some msg.data.engine_status
    ∧ r.fix_status = some msg.data.fix_status
    ∧ r.network_status = some msg.data.network_status := by
  simp only [from_device_message, Except.ok.injEq] at h
  subst h
  refine ⟨?_, ?_, rfl, rfl, rfl, rfl, rfl, rfl, rfl, rfl, rfl, rfl, rfl⟩
  · by_cases ha : msg.data.alert = "" <;> simp [ha]
  · by_cases hc : msg.metadata.client_ip = "" <;> simp [hc]

/-- Witness for `C10_none_on_empty_fields` at a concrete message with
every raw field empty: `alert_type` and `client_ip` are null while
`cell_id` is the present empty string. -/
theorem C10_none_on_empty_fields_witness :
    ∃ r, from_device_message epochDT testMsg0 = .ok r
      ∧ r.alert_type = none ∧ r.client_ip = none ∧ r.cell_id = some "" := by
  cases hr : from_device_message epochDT testMsg0 with
  | error e => exact absurd hr (by simp [from_device_message])
  | ok r =>
    have h := C10_none_on_empty_fields epochDT testMsg0 r hr
    exact ⟨r, rfl, h.1.2 rfl, h.2.1.2 rfl, h.2.2.1⟩

/-! ## Claim C5: numeric and datetime parsing -/

theorem takeDigits_eq_self {d : List Char} (hd : ∀ c ∈ d, c.isDigit) :
    takeDigits d = (d, []) := by
  induction d with
  | nil => rfl
  | cons c cs ih =>
    have hc : c.isDigit := hd c (List.mem_cons_self c cs)
    have hcs := ih (fun x hx => hd x (List.mem_cons_of_mem c hx))
    simp [takeDigits, hc, hcs]

theorem takeDigits_append (cs : List Char) :
    (takeDigits cs).1 ++ (takeDigits cs).2 = cs := by
  induction cs with
  | nil => rfl
  | cons c cs ih =>
    by_cases hc : c.isDigit <;> simp [takeDigits, hc, ih]

theorem takeDigits_digits (cs : List Char) :
    ∀ c ∈ (takeDigits cs).1, c.isDigit = true := by
  induction cs with
  | nil => intro c hc; simp [takeDigits] at hc
  | cons x xs ih =>
    intro c hc
    by_cases hx : x.isDigit
    · simp [takeDigits, hx] at hc
      rcases hc with rfl | hc
      · exact hx
      · exact ih c hc
    · simp [takeDigits, hx] at hc

theorem digit_ne_plus {c : Char} (hc : c.isDigit = true) : c ≠ '+' := by
  intro h
  subst h
  exact absurd hc (by decide)

theorem digit_ne_minus {c : Char} (hc : c.isDigit = true) : c ≠ '-' := by
  intro h
  subst h
  exact absurd hc (by decide)

theorem splitSign_digit_head {c : Char} (cs : List Char) (hc : c.isDigit = true) :
    splitSign (c :: cs) = (false, c :: cs) := by
  simp [splitSign, digit_ne_plus hc, digit_ne_minus hc]

theorem rustParseFloat_digits {d : List Char} (hne : d ≠ [])
    (hd : ∀ c ∈ d, c.isDigit) :
    rustParseFloat d = some ((natOfDigits d : ℚ)) := by
  obtain ⟨c, cs, rfl⟩ := List.exists_cons_of_ne_nil hne
  have hc : c.isDigit := hd c (List.mem_cons_self c cs)
  simp [rustParseFloat, splitSign_digit_head cs hc, takeDigits_eq_self hd]

theorem rustParseInt_plus_digits {lo hi : Int} {d : List Char} (hne : d ≠ [])
    (hd : ∀ c ∈ d, c.isDigit) (hlo : lo ≤ 0)
    (hhi : (natOfDigits d : Int) ≤ hi) :
    rustParseInt lo hi ('+' :: d) = some ((natOfDigits d : Int)) := by
  have hall : d.all Char.isDigit = true := List.all_eq_true.2 hd
  have h0 : (0 : Int) ≤ (natOfDigits d : Int) := Int.ofNat_nonneg _
  simp [rustParseInt, splitSign, hne, hall, hlo.trans h0, hhi]

theorem mkString_cons_ne_empty (c : Char) (d : List Char) :
    String.mk (c :: d) ≠ "" := by
  intro h
  have : c :: d = ([] : List Char) := congrArg String.data h
  simp at this

/-- The shape of a string accepted by the `%Y-%m-%d %H:%M:%S` format:
six non-empty digit runs separated by the literal separators. -/
def IsDigitRun (ds : List Char) : Prop := ds ≠ [] ∧ ∀ c ∈ ds, c.isDigit

def GpsShape (s : String) : Prop :=
  ∃ a b c d e f : List Char,
    IsDigitRun a ∧ IsDigitRun b ∧ IsDigitRun c ∧ IsDigitRun d
    ∧ IsDigitRun e ∧ IsDigitRun f
    ∧ s.toList = a ++ '-' :: (b ++ '-' :: (c ++ ' ' :: (d ++ ':' :: (e ++ ':' :: f))))

theorem parseNumField_sound {cs : List Char} {p : Nat × List Char}
    (h : parseNumField cs = some p) :
    ∃ ds, IsDigitRun ds ∧ cs = ds ++ p.2 := by
  by_cases hd : (takeDigits cs).1 = []
  · simp [parseNumField, hd] at h
  · simp only [parseNumField, hd, if_neg, ite_false, Option.some.injEq] at h
    refine ⟨(takeDigits cs).1, ⟨hd, takeDigits_digits cs⟩, ?_⟩
    rw [← h, takeDigits_append]

theorem expectCh_sound {c : Char} {cs r : List Char}
    (h : expectCh c cs = some r) : cs = c :: r := by
  cases cs with
  | nil => simp [expectCh] at h
  | cons x xs =>
    by_cases hx : x = c
    · subst hx
      simp [expectCh] at h
      rw [h]
    · simp [expectCh, hx] at h

theorem chronoParseDT_sound {s : String} {dt : NaiveDT}
    (h : chronoParseDT s = some dt) : GpsShape s := by
  simp only [chronoParseDT, Option.bind_eq_some] at h
  obtain ⟨p1, h1, r1b, h2, p2, h3, r2b, h4, p3, h5, r3b, h6,
    p4, h7, r4b, h8, p5, h9, r5b, h10, p6, h11, hfin⟩ := h
  obtain ⟨da, hda, hcs1⟩ := parseNumField_sound h1
  obtain ⟨db, hdb, hcs2⟩ := parseNumField_sound h3
  obtain ⟨dc, hdc, hcs3⟩ := parseNumField_sound h5
  obtain ⟨dd, hdd, hcs4⟩ := parseNumField_sound h7
  obtain ⟨de, hde, hcs5⟩ := parseNumField_sound h9
  obtain ⟨df, hdf, hcs6⟩ := parseNumField_sound h11
  have hr6 : p6.2 = [] := by
    by_cases hcond : p6.2 = [] ∧ 1 ≤ p2.1 ∧ p2.1 ≤ 12 ∧ 1 ≤ p3.1
        ∧ p3.1 ≤ daysInMonth p1.1 p2.1 ∧ p4.1 ≤ 23 ∧ p5.1 ≤ 59 ∧ p6.1 ≤ 59
    · exact hcond.1
    · rw [if_neg hcond] at hfin
      exact absurd hfin (by simp)
  rw [hr6] at hcs6
  refine ⟨da, db, dc, dd, de, df, hda, hdb, hdc, hdd, hde, hdf, ?_⟩
  rw [hcs1, expectCh_sound h2, hcs2, expectCh_sound h4, hcs3,
      expectCh_sound h6, hcs4, expectCh_sound h8, hcs5,
      expectCh_sound h10, hcs6]
  simp

/-- C5: numeric string fields parse with empty mapping to an absent
value and an optional leading `+` followed by digits mapping to that
(non-negative) number, uniformly for the float, 32-bit and 64-bit
integer parsers; and the materialized row's `gps_datetime` is null when
the input string is empty, while a non-null value can arise only from a
string matching the `YYYY-MM-DD HH:MM:SS` shape. -/
theorem C5_numeric_and_datetime_parsing (now : NaiveDT) (msg : DeviceMessage)
    (d : List Char) (hne : d ≠ []) (hd : ∀ c ∈ d, c.isDigit)
    (hrange : (natOfDigits d : Int) ≤ 2 ^ 31 - 1) :
    parse_f64 "" = none ∧ parse_i64 "" = none ∧ parse_i32 "" = none
    ∧ parse_f64 (String.mk ('+' :: d)) = some ((natOfDigits d : ℚ))
    ∧ parse_i64 (String.mk ('+' :: d)) = some ((natOfDigits d : Int))
    ∧ parse_i32 (String.mk ('+' :: d)) = some ((natOfDigits d : Int))
    ∧ (∀ r, from_device_message now msg = .ok r →
        r.latitude = parse_f64 msg.data.latitude
        ∧ r.gps_epoch = parse_i64 msg.data.gps_epoch
        ∧ r.idle_time = parse_i32 msg.data.idle_time
        ∧ (msg.data.gps_datetime = "" → r.gps_datetime = none)
        ∧ (∀ dt, r.gps_datetime = some dt → GpsShape msg.data.gps_datetime)) := by
  refine ⟨rfl, rfl, rfl, ?_, ?_, ?_, ?_⟩
  · rw [parse_f64, if_neg (mkString_cons_ne_empty '+' d)]
    have hstrip : stripLeadingPlus (String.mk ('+' :: d)).toList = d := by
      simp [stripLeadingPlus, String.toList]
    rw [hstrip]
    exact rustParseFloat_digits hne hd
  · rw [parse_i64, if_neg (mkString_cons_ne_empty '+' d)]
    have hs : (String.mk ('+' :: d)).toList = '+' :: d := rfl
    rw [hs]
    exact rustParseInt_plus_digits hne hd (by norm_num)
      (hrange.trans (by norm_num))
  · rw [parse_i32, if_neg (mkString_cons_ne_empty '+' d)]
    have hs : (String.mk ('+' :: d)).toList = '+' :: d := rfl
    rw [hs]
    exact rustParseInt_plus_digits hne hd (by norm_num) hrange
  · intro r hr
    simp only [from_device_message, Except.ok.injEq] at hr
    subst hr
    refine ⟨rfl, rfl, rfl, ?_, ?_⟩
    · intro h
      simp [h]
    · intro dt hdt
      by_cases he : msg.data.gps_datetime = ""
      · simp [he] at hdt
      · simp only [ne_eq, he, not_false_iff, if_true, ite_true] at hdt
        exact chronoParseDT_sound hdt

/-- Witness for `C5_numeric_and_datetime_parsing` on the digit string
`42`. -/
theorem C5_numeric_and_datetime_parsing_witness :
    parse_f64 (String.mk ['+', '4', '2']) = some ((42 : ℚ))
    ∧ parse_i32 (String.mk ['+', '4', '2']) = some ((42 : Int)) := by
  have h := C5_numeric_and_datetime_parsing epochDT testMsg0 ['4', '2']
    (by decide) (by decide) (by decide)
  have e : natOfDigits ['4', '2'] = 42 := rfl
  constructor
  · have h4 := h.2.2.2.1
    rw [e] at h4
    simpa using h4
  · have h6 := h.2.2.2.2.2.1
    rw [e] at h6
    simpa using h6

/-! ## Claim C1: transactional grouping of `insert_records_by_manufacturer` -/

/-- Number of `beginTx` operations in a trace. -/
def countBegin : List DbOp → Nat
  | [] => 0
  | DbOp.beginTx :: rest => countBegin rest + 1
  | _ :: rest => countBegin rest

/-- Number of `commitTx` operations in a trace. -/
def countCommit : List DbOp → Nat
  | [] => 0
  | DbOp.commitTx :: rest => countCommit rest + 1
  | _ :: rest => countCommit rest

theorem countBegin_append (l1 l2 : List DbOp) :
    countBegin (l1 ++ l2) = countBegin l1 + countBegin l2 := by
  induction l1 with
  | nil => simp [countBegin]
  | cons op rest ih => cases op <;> (simp [countBegin, ih]; try omega)

theorem countCommit_append (l1 l2 : List DbOp) :
    countCommit (l1 ++ l2) = countCommit l1 + countCommit l2 := by
  induction l1 with
  | nil => simp [countCommit]
  | cons op rest ih => cases op <;> (simp [countCommit, ih]; try omega)

theorem countBegin_map_hist (t : String) (l : List (List CommunicationRecord)) :
    countBegin (l.map (DbOp.execHistory t)) = 0 := by
  induction l with
  | nil => rfl
  | cons c rest ih => simp [countBegin, ih]

theorem countBegin_map_cur (l : List (List CommunicationRecord)) :
    countBegin (l.map DbOp.execCurrent) = 0 := by
  induction l with
  | nil => rfl
  | cons c rest ih => simp [countBegin, ih]

theorem countCommit_map_hist (t : String) (l : List (List CommunicationRecord)) :
    countCommit (l.map (DbOp.execHistory t)) = 0 := by
  induction l with
  | nil => rfl
  | cons c rest ih => simp [countCommit, ih]

theorem countCommit_map_cur (l : List (List CommunicationRecord)) :
    countCommit (l.map DbOp.execCurrent) = 0 := by
  induction l with
  | nil => rfl
  | cons c rest ih => simp [countCommit, ih]

/-- With no statement failing, `execChunks` executes every chunk in
order and reports no error. -/
theorem execChunks_noFail (mk : List CommunicationRecord → DbOp)
    (chunks : List (List CommunicationRecord)) :
    execChunks (fun _ => false) mk chunks = (chunks.map mk, none) := by
  induction chunks with
  | nil => rfl
  | cons c rest ih => simp [execChunks, ih]

/-- With no statement failing, `batch_insert` on a non-empty list is
one transaction: begin, the history chunks, the current-state chunks,
commit. -/
theorem batch_insert_noFail (records : List CommunicationRecord)
    (mfr : Manufacturer) (h : records ≠ []) :
    batch_insert (fun _ => false) records mfr =
      (DbOp.beginTx ::
        ((chunksOf 100 records).map (DbOp.execHistory (tableName mfr))
          ++ (chunksOf 100 records).map DbOp.execCurrent ++ [DbOp.commitTx]),
       none) := by
  simp [batch_insert, h, fallback_batch_insert, fallback_batch_insert_current,
    execChunks_noFail]

/-- C1 (amended): with both lists non-empty and no statement failing, a
call to `insert_records_by_manufacturer` opens one transaction per
manufacturer — two in total, each committed separately; the first
transaction holds the Suntech history chunks followed by the
current-state chunks for the Suntech rows only, the second likewise for
Queclink. -/
theorem C1_transaction_per_manufacturer
    (s q : List CommunicationRecord) (hs : s ≠ []) (hq : q ≠ []) :
    insert_records_by_manufacturer (fun _ => false) s q =
      ((DbOp.beginTx ::
          ((chunksOf 100 s).map (DbOp.execHistory "communications_suntech")
            ++ (chunksOf 100 s).map DbOp.execCurrent ++ [DbOp.commitTx]))
        ++ (DbOp.beginTx ::
          ((chunksOf 100 q).map (DbOp.execHistory "communications_queclink")
            ++ (chunksOf 100 q).map DbOp.execCurrent ++ [DbOp.commitTx])),
       none)
    ∧ countBegin (insert_records_by_manufacturer (fun _ => false) s q).1 = 2
    ∧ countCommit (insert_records_by_manufacturer (fun _ => false) s q).1 = 2 := by
  have e1 := batch_insert_noFail s .suntech hs
  have e2 := batch_insert_noFail q .queclink hq
  have hmain : insert_records_by_manufacturer (fun _ => false) s q =
      ((DbOp.beginTx ::
          ((chunksOf 100 s).map (DbOp.execHistory "communications_suntech")
            ++ (chunksOf 100 s).map DbOp.execCurrent ++ [DbOp.commitTx]))
        ++ (DbOp.beginTx ::
          ((chunksOf 100 q).map (DbOp.execHistory "communications_queclink")
            ++ (chunksOf 100 q).map DbOp.execCurrent ++ [DbOp.commitTx])),
       none) := by
    simp only [insert_records_by_manufacturer, hs, hq, if_neg, ite_false,
      e1, e2, tableName]
  have hops : (insert_records_by_manufacturer (fun _ => false) s q).1 =
      (DbOp.beginTx ::
          ((chunksOf 100 s).map (DbOp.execHistory "communications_suntech")
            ++ (chunksOf 100 s).map DbOp.execCurrent ++ [DbOp.commitTx]))
        ++ (DbOp.beginTx ::
          ((chunksOf 100 q).map (DbOp.execHistory "communications_queclink")
            ++ (chunksOf 100 q).map DbOp.execCurrent ++ [DbOp.commitTx])) := by
    rw [hmain]
  refine ⟨hmain, ?_, ?_⟩
  · rw [hops]
    simp [countBegin, countBegin_append, countBegin_map_hist, countBegin_map_cur]
  · rw [hops]
    simp [countCommit, countCommit_append, countCommit_map_hist,
      countCommit_map_cur]

/-- C1 counterexample: with one Suntech and one Queclink row and no
failures, the trace of `insert_records_by_manufacturer` contains two
`beginTx` operations, not one. -/
theorem C1_two_begins_counterexample :
    countBegin (insert_records_by_manufacturer (fun _ => false) [recS] [recQ]).1 = 2
    ∧ ¬ countBegin
        (insert_records_by_manufacturer (fun _ => false) [recS] [recQ]).1 = 1 := by
  decide

/-- Witness for `C1_transaction_per_manufacturer` on singleton lists. -/
theorem C1_transaction_per_manufacturer_witness :
    countCommit (insert_records_by_manufacturer (fun _ => false) [recS] [recQ]).1
      = 2 :=
  (C1_transaction_per_manufacturer [recS] [recQ] (by simp) (by simp)).2.2

/-! ## Claim C2: validation and dropping of buffered records -/

theorem groupFold_length (records : List CommunicationRecord) :
    ∀ acc, ((records.foldl groupStep acc).1.length
        + (records.foldl groupStep acc).2.length)
      = acc.1.length + acc.2.length + records.length := by
  induction records with
  | nil => intro acc; simp
  | cons r rest ih =>
    intro acc
    rw [List.foldl_cons, ih]
    rcases hm : r.manufacturer with _ | m
    · simp [groupStep, hm]
      omega
    · cases m
      · simp [groupStep, hm]
        omega
      · simp [groupStep, hm]
        omega

theorem groupFold_subset (records : List CommunicationRecord) :
    ∀ acc, acc.1 ⊆ (records.foldl groupStep acc).1 := by
  induction records with
  | nil => intro acc x hx; simpa using hx
  | cons r rest ih =>
    intro acc x hx
    rw [List.foldl_cons]
    refine ih (groupStep acc r) ?_
    rcases hm : r.manufacturer with _ | m
    · simp [groupStep, hm]
      exact Or.inl hx
    · cases m
      · simp [groupStep, hm]
        exact Or.inl hx
      · simpa [groupStep, hm] using hx

theorem groupFold_none_mem (records : List CommunicationRecord)
    (r : CommunicationRecord) (hr : r.manufacturer = none) :
    ∀ acc, r ∈ records → r ∈ (records.foldl groupStep acc).1 := by
  induction records with
  | nil => intro acc h; simp at h
  | cons x rest ih =>
    intro acc hmem
    rw [List.foldl_cons]
    rcases List.mem_cons.1 hmem with rfl | hm2
    · have hx : r ∈ (groupStep acc r).1 := by
        simp [groupStep, hr]
      exact groupFold_subset rest _ hx
    · exact ih _ hm2

/-- C2 (amended): nothing on the path to the Store validates `uuid` or
`device_id`, and no buffered record is dropped: the grouping step of
`flush_buffer` forwards every record, and a record whose manufacturer
is absent is (after a warning) placed in the Suntech list and hence
inserted into the Suntech tables rather than dropped. -/
theorem C2_missing_manufacturer_forwarded (records : List CommunicationRecord)
    (r : CommunicationRecord) (hmem : r ∈ records)
    (hnone : r.manufacturer = none) :
    r ∈ (groupByManufacturer records).1
    ∧ (groupByManufacturer records).1.length
        + (groupByManufacturer records).2.length = records.length := by
  refine ⟨groupFold_none_mem records r hnone ([], []) hmem, ?_⟩
  have h := groupFold_length records ([], [])
  simpa [groupByManufacturer] using h

/-- C2 counterexample: a buffered record with absent manufacturer and
empty `uuid`/`device_id` is not dropped — flushing it writes it into
the `communications_suntech` history table. -/
theorem C2_unvalidated_record_inserted :
    recNoMfr.manufacturer = none ∧ recNoMfr.uuid = "" ∧ recNoMfr.device_id = ""
    ∧ (applyOps epochDT emptyDB (flush_buffer (fun _ => false) [recNoMfr]).1).suntech
        = [recNoMfr] := by
  decide

/-- Witness for `C2_missing_manufacturer_forwarded` on a single
manufacturer-less record. -/
theorem C2_missing_manufacturer_forwarded_witness :
    recNoMfr ∈ (groupByManufacturer [recNoMfr]).1
    ∧ (groupByManufacturer [recNoMfr]).1.length
        + (groupByManufacturer [recNoMfr]).2.length = 1 :=
  C2_missing_manufacturer_forwarded [recNoMfr] recNoMfr
    (List.mem_cons_self _ _) rfl

/-! ## Claim C3: rollback and diagnostics on statement failure -/

theorem execChunks_ops_shape (fails : DbOp → Bool)
    (mk : List CommunicationRecord → DbOp)
    (chunks : List (List CommunicationRecord)) :
    ∀ op ∈ (execChunks fails mk chunks).1, ∃ c, op = mk c := by
  induction chunks with
  | nil => intro op hop; simp [execChunks] at hop
  | cons c rest ih =>
    intro op hop
    by_cases hf : fails (mk c)
    · simp [execChunks, hf] at hop
    · simp only [execChunks, hf, if_neg, ite_false, List.mem_cons,
        Bool.false_eq_true] at hop
      rcases hop with rfl | hop
      · exact ⟨c, rfl⟩
      · exact ih op hop

theorem execChunks_failure (fails : DbOp → Bool)
    (mk : List CommunicationRecord → DbOp)
    (chunks : List (List CommunicationRecord)) (f : StmtFailure)
    (h : (execChunks fails mk chunks).2 = some f) :
    ∃ c ∈ chunks, f.op = mk c ∧ f.diags = c.map rowDiag := by
  induction chunks with
  | nil => simp [execChunks] at h
  | cons c rest ih =>
    by_cases hf : fails (mk c)
    · simp only [execChunks, hf, if_pos, ite_true, Option.some.injEq] at h
      exact ⟨c, List.mem_cons_self _ _, by rw [← h], by rw [← h]⟩
    · simp only [execChunks, hf, if_neg, ite_false, Bool.false_eq_true] at h
      obtain ⟨c2, hc2, hop, hd⟩ := ih h
      exact ⟨c2, List.mem_cons_of_mem _ hc2, hop, hd⟩

/-- A trace without a `commitTx` publishes nothing: the committed state
is unchanged. -/
theorem applyOpsAux_no_commit (now : NaiveDT) (ops : List DbOp)
    (h : ∀ op ∈ ops, op ≠ DbOp.commitTx) :
    ∀ committed working : DBState,
      applyOpsAux now committed working ops = committed := by
  induction ops with
  | nil => intro c w; rfl
  | cons op rest ih =>
    intro c w
    have hrest := fun o ho => h o (List.mem_cons_of_mem _ ho)
    cases op with
    | beginTx => exact ih hrest c c
    | commitTx => exact absurd rfl (h _ (List.mem_cons_self _ _))
    | execHistory t chunk => exact ih hrest c _
    | execCurrent chunk => exact ih hrest c _

/-- On a statement failure, the trace emitted by `batch_insert`
contains no commit, and the failure carries the per-row diagnostics of
the failing chunk. -/
theorem batch_insert_failure_ops (fails : DbOp → Bool)
    (records : List CommunicationRecord) (mfr : Manufacturer)
    (f : StmtFailure) (h : (batch_insert fails records mfr).2 = some f) :
    (∀ op ∈ (batch_insert fails records mfr).1, op ≠ DbOp.commitTx)
    ∧ ∃ c ∈ chunksOf 100 records,
        (f.op = DbOp.execHistory (tableName mfr) c ∨ f.op = DbOp.execCurrent c)
        ∧ f.diags = c.map rowDiag := by
  by_cases hr : records = []
  · simp [batch_insert, hr] at h
  · rcases hh : (fallback_batch_insert fails records (tableName mfr)).2 with _ | fh
    · rcases hc : (fallback_batch_insert_current fails records).2 with _ | fc
      · simp [batch_insert, hr, hh, hc] at h
      · have hf : fc = f := by
          simpa [batch_insert, hr, hh, hc] using h
        subst hf
        constructor
        · have hops : (batch_insert fails records mfr).1
              = DbOp.beginTx
                :: ((fallback_batch_insert fails records (tableName mfr)).1
                  ++ (fallback_batch_insert_current fails records).1) := by
            simp [batch_insert, hr, hh, hc]
          rw [hops]
          intro op hop
          rcases List.mem_cons.1 hop with rfl | hop2
          · simp
          · rcases List.mem_append.1 hop2 with hop3 | hop3
            · obtain ⟨c, rfl⟩ := execChunks_ops_shape fails _ _ op hop3
              simp
            · obtain ⟨c, rfl⟩ := execChunks_ops_shape fails _ _ op hop3
              simp
        · obtain ⟨c, hcmem, hop, hd⟩ := execChunks_failure fails _ _ fc hc
          exact ⟨c, hcmem, Or.inr hop, hd⟩
    · have hf : fh = f := by
        simpa [batch_insert, hr, hh] using h
      subst hf
      constructor
      · have hops : (batch_insert fails records mfr).1
            = DbOp.beginTx
              :: (fallback_batch_insert fails records (tableName mfr)).1 := by
          simp [batch_insert, hr, hh]
        rw [hops]
        intro op hop
        rcases List.mem_cons.1 hop with rfl | hop2
        · simp
        · obtain ⟨c, rfl⟩ := execChunks_ops_shape fails _ _ op hop2
          simp
      · obtain ⟨c, hcmem, hop, hd⟩ := execChunks_failure fails _ _ fh hh
        exact ⟨c, hcmem, Or.inl hop, hd⟩

/-- C3: if any history or current-state statement fails inside
`batch_insert`, the database visible after the call equals the database
before it (the transaction is never committed, hence rolled back), and
the propagated failure carries the per-row diagnostics of the failing
chunk. -/
theorem C3_rollback_on_failure (fails : DbOp → Bool)
    (records : List CommunicationRecord) (mfr : Manufacturer)
    (now : NaiveDT) (st : DBState) (f : StmtFailure)
    (h : (batch_insert fails records mfr).2 = some f) :
    applyOps now st (batch_insert fails records mfr).1 = st
    ∧ ∃ c ∈ chunksOf 100 records,
        (f.op = DbOp.execHistory (tableName mfr) c ∨ f.op = DbOp.execCurrent c)
        ∧ f.diags = c.map rowDiag := by
  obtain ⟨hnc, hex⟩ := batch_insert_failure_ops fails records mfr f h
  exact ⟨applyOpsAux_no_commit now _ hnc st st, hex⟩

/-- Witness for `C3_rollback_on_failure`: with every statement failing,
inserting one Suntech row leaves the empty database unchanged. -/
theorem C3_rollback_on_failure_witness :
    applyOps epochDT emptyDB (batch_insert (fun _ => true) [recS] .suntech).1
      = emptyDB :=
  (C3_rollback_on_failure (fun _ => true) [recS] .suntech epochDT emptyDB
    ⟨DbOp.execHistory "communications_suntech" [recS], [rowDiag recS]⟩
    (by decide)).1

/-! ## Claim C6: the size trigger of the batch loop -/

/-- Invariant of the batch loop: the resident batch is strictly below
the threshold, size-triggered flushes happen at exactly the threshold,
and every flush happens at or below it. -/
def LoopInv (bs : Nat) (st : LoopState α) : Prop :=
  st.batch.length < bs
  ∧ (∀ l ∈ st.sizeFlushLens, l = bs)
  ∧ (∀ l ∈ st.allFlushLens, l ≤ bs)

theorem stepLoop_inv {bs : Nat} (hbs : 1 ≤ bs) (fail : Nat → Bool)
    {st : LoopState α} (hst : LoopInv bs st) (e : BatchEvent α) :
    LoopInv bs (stepLoop bs fail st e) := by
  obtain ⟨h1, h2, h3⟩ := hst
  cases e with
  | msg m =>
    by_cases htrig : bs ≤ (st.batch ++ [m]).length
    · have hlen : (st.batch ++ [m]).length = bs := by
        simp only [List.length_append, List.length_cons, List.length_nil] at htrig ⊢
        omega
      have hne : (st.batch ++ [m]).isEmpty = false := by
        simp
      refine ⟨?_, ?_, ?_⟩ <;>
        simp only [stepLoop, htrig, if_pos, ite_true, process_batch, hne,
          Bool.false_eq_true, ite_false]
      · exact hbs
      · intro l hl
        rcases List.mem_append.1 hl with hl2 | hl2
        · exact h2 l hl2
        · simp only [List.mem_singleton] at hl2
          rw [hl2, hlen]
      · intro l hl
        rcases List.mem_append.1 hl with hl2 | hl2
        · exact h3 l hl2
        · simp only [List.mem_singleton] at hl2
          rw [hl2, hlen]
    · refine ⟨?_, ?_, ?_⟩ <;> simp only [stepLoop, htrig, if_neg, ite_false]
      · simp only [List.length_append, List.length_cons, List.length_nil] at htrig ⊢
        omega
      · exact h2
      · exact h3
  | tick =>
    by_cases hb : st.batch.isEmpty
    · simpa only [stepLoop, hb, if_pos, ite_true] using ⟨h1, h2, h3⟩
    · refine ⟨?_, ?_, ?_⟩ <;>
        simp only [stepLoop, hb, Bool.false_eq_true, ite_false, process_batch]
      · exact hbs
      · exact h2
      · intro l hl
        rcases List.mem_append.1 hl with hl2 | hl2
        · exact h3 l hl2
        · simp only [List.mem_singleton] at hl2
          rw [hl2]
          exact Nat.le_of_lt h1

theorem runLoop_inv {α : Type} (bs : Nat) (hbs : 1 ≤ bs) (fail : Nat → Bool)
    (events : List (BatchEvent α)) : LoopInv bs (runLoop bs fail events) := by
  suffices h : ∀ st : LoopState α, LoopInv bs st →
      LoopInv bs (events.foldl (stepLoop bs fail) st) by
    refine h initLoop ⟨hbs, ?_, ?_⟩ <;> simp [initLoop]
  induction events with
  | nil => exact fun st h => h
  | cons e rest ih =>
    intro st h
    exact ih _ (stepLoop_inv hbs fail h e)

/-- C6: in the batch loop, a size-triggered flush fires exactly when
the batch has just reached `batch_size` (so every size-triggered flush
sees a batch of length exactly `batch_size`), and every flush
invocation — size- or timer-triggered — sees a batch of length at most
`batch_size`. -/
theorem C6_flush_at_threshold {α : Type} (bs : Nat) (hbs : 1 ≤ bs)
    (fail : Nat → Bool) (events : List (BatchEvent α)) :
    (∀ l ∈ (runLoop bs fail events).sizeFlushLens, l = bs)
    ∧ (∀ l ∈ (runLoop bs fail events).allFlushLens, l ≤ bs) :=
  ⟨(runLoop_inv bs hbs fail events).2.1, (runLoop_inv bs hbs fail events).2.2⟩

/-- A demonstration trace: three inbound messages and a timer tick. -/
def demoEvents : List (BatchEvent Nat) :=
  [.msg 1, .msg 2, .msg 3, .tick]

/-- Witness for `C6_flush_at_threshold` with `batch_size = 2`. -/
theorem C6_flush_at_threshold_witness :
    ((runLoop 2 (fun _ => false) demoEvents).allFlushLens.all
      (fun l => decide (l ≤ 2))) = true := by
  have h := (C6_flush_at_threshold 2 (by decide) (fun _ => false) demoEvents).2
  exact List.all_eq_true.2 (fun l hl => decide_eq_true (h l hl))

/-! ## Claim C7: Store failure clears the batch and processing
continues -/

/-- Equality of two loop states on everything except the error log. -/
def coreEq (s t : LoopState α) : Prop :=
  s.batch = t.batch ∧ s.flushed = t.flushed
  ∧ s.sizeFlushLens = t.sizeFlushLens ∧ s.allFlushLens = t.allFlushLens

theorem process_batch_coreEq {f1 f2 : Nat → Bool} {s t : LoopState α}
    (h : coreEq s t) : coreEq (process_batch f1 s) (process_batch f2 t) := by
  obtain ⟨h1, h2, h3, h4⟩ := h
  by_cases hb : t.batch.isEmpty
  · simp only [process_batch, h1, h2, h3, h4, hb, if_pos, ite_true]
    exact ⟨h1, h2, h3, h4⟩
  · simp only [process_batch, h1, h2, h3, h4, hb, Bool.false_eq_true, ite_false]
    exact ⟨rfl, rfl, rfl, rfl⟩

theorem stepLoop_coreEq (bs : Nat) {f1 f2 : Nat → Bool} {s t : LoopState α}
    (h : coreEq s t) (e : BatchEvent α) :
    coreEq (stepLoop bs f1 s e) (stepLoop bs f2 t e) := by
  obtain ⟨h1, h2, h3, h4⟩ := h
  cases e with
  | msg m =>
    by_cases htrig : bs ≤ (t.batch ++ [m]).length
    · simp only [stepLoop, h1, h2, h3, h4, htrig, if_pos, ite_true]
      exact process_batch_coreEq ⟨rfl, rfl, rfl, rfl⟩
    · simp only [stepLoop, h1, h2, h3, h4, htrig, ite_false]
      exact ⟨rfl, rfl, rfl, rfl⟩
  | tick =>
    by_cases hb : t.batch.isEmpty
    · simp only [stepLoop, h1, hb, if_pos, ite_true]
      exact ⟨h1, h2, h3, h4⟩
    · simp only [stepLoop, h1, hb, Bool.false_eq_true, ite_false]
      exact process_batch_coreEq ⟨h1, h2, h3, h4⟩

theorem runLoop_coreEq {α : Type} (bs : Nat) (fail : Nat → Bool)
    (events : List (BatchEvent α)) :
    coreEq (runLoop bs fail events) (runLoop bs (fun _ => false) events) := by
  suffices h : ∀ s t : LoopState α, coreEq s t →
      coreEq (events.foldl (stepLoop bs fail) s)
        (events.foldl (stepLoop bs (fun _ => false)) t) from
    h initLoop initLoop ⟨rfl, rfl, rfl, rfl⟩
  induction events with
  | nil => exact fun s t h => h
  | cons e rest ih =>
    intro s t h
    exact ih _ _ (stepLoop_coreEq bs h e)

theorem flushed_join_aux {α : Type} (bs : Nat) (fail : Nat → Bool)
    (events : List (BatchEvent α)) :
    ∀ st : LoopState α,
      (events.foldl (stepLoop bs fail) st).flushed.flatten
          ++ (events.foldl (stepLoop bs fail) st).batch
        = st.flushed.flatten ++ st.batch ++ eventMessages events := by
  induction events with
  | nil => intro st; simp [eventMessages]
  | cons e rest ih =>
    intro st
    rw [List.foldl_cons, ih]
    cases e with
    | msg m =>
      by_cases htrig : bs ≤ st.batch.length + 1
      · have hne : (st.batch ++ [m]).isEmpty = false := by simp
        simp [stepLoop, htrig, process_batch, hne, eventMessages,
          List.append_assoc]
      · simp [stepLoop, htrig, eventMessages, List.append_assoc]
    | tick =>
      by_cases hb : st.batch.isEmpty
      · have hb2 : st.batch = [] := List.isEmpty_iff.1 hb
        simp [stepLoop, hb, eventMessages, hb2]
      · simp [stepLoop, hb, process_batch, eventMessages, List.append_assoc]

theorem errorLog_aux {α : Type} (bs : Nat) (fail : Nat → Bool)
    (events : List (BatchEvent α)) :
    ∀ st : LoopState α,
      st.errorLog = (List.range st.flushed.length).filter (fun i => fail i) →
      (events.foldl (stepLoop bs fail) st).errorLog
        = (List.range (events.foldl (stepLoop bs fail) st).flushed.length).filter
            (fun i => fail i) := by
  induction events with
  | nil => exact fun st h => h
  | cons e rest ih =>
    intro st hst
    rw [List.foldl_cons]
    refine ih _ ?_
    have hstep : ∀ u : LoopState α,
        u.errorLog = (List.range u.flushed.length).filter (fun i => fail i) →
        (process_batch fail u).errorLog
          = (List.range (process_batch fail u).flushed.length).filter
              (fun i => fail i) := by
      intro u hu
      by_cases hb : u.batch.isEmpty
      · simpa [process_batch, hb] using hu
      · simp only [process_batch, hb, Bool.false_eq_true, ite_false]
        rw [List.length_append, List.length_singleton, List.range_succ,
          List.filter_append, ← hu]
        by_cases hf : fail u.flushed.length
        · simp [hf]
        · simp [hf]
    cases e with
    | msg m =>
      by_cases htrig : bs ≤ st.batch.length + 1
      · have h2 := hstep
          ⟨st.batch ++ [m], st.flushed, st.sizeFlushLens ++ [st.batch.length + 1],
            st.allFlushLens, st.errorLog⟩ hst
        simpa [stepLoop, htrig] using h2
      · simpa [stepLoop, htrig] using hst
    | tick =>
      by_cases hb : st.batch.isEmpty
      · simpa [stepLoop, hb] using hst
      · simp only [stepLoop, hb, Bool.false_eq_true, ite_false]
        exact hstep _ hst

theorem stepLoop_flush_clears (bs : Nat) (fail : Nat → Bool)
    (st : LoopState α) (e : BatchEvent α)
    (h : (stepLoop bs fail st e).flushed ≠ st.flushed) :
    (stepLoop bs fail st e).batch = [] := by
  cases e with
  | msg m =>
    by_cases htrig : bs ≤ st.batch.length + 1
    · have hne : (st.batch ++ [m]).isEmpty = false := by simp
      simp [stepLoop, htrig, process_batch, hne]
    · simp [stepLoop, htrig] at h
  | tick =>
    by_cases hb : st.batch.isEmpty
    · simp only [stepLoop, hb, if_pos, ite_true] at h
      exact absurd rfl h
    · simp [stepLoop, hb, process_batch]

/-- C7: a Store failure changes nothing in the loop's behaviour except
the error log (the failure is logged and processing continues); the
batches handed to the Store concatenate — together with the resident
batch — to exactly the inbound messages, so no record is ever offered
twice (failed batches are not retried); the error log records exactly
the failed Store calls; and whenever a step flushes, the batch is empty
immediately afterwards. -/
theorem C7_store_failure_drops_batch {α : Type} (bs : Nat) (fail : Nat → Bool)
    (events : List (BatchEvent α)) :
    coreEq (runLoop bs fail events) (runLoop bs (fun _ => false) events)
    ∧ (runLoop bs fail events).flushed.flatten ++ (runLoop bs fail events).batch
        = eventMessages events
    ∧ (runLoop bs fail events).errorLog
        = (List.range (runLoop bs fail events).flushed.length).filter
            (fun i => fail i)
    ∧ (∀ (st : LoopState α) (e : BatchEvent α),
        (stepLoop bs fail st e).flushed ≠ st.flushed →
        (stepLoop bs fail st e).batch = []) := by
  refine ⟨runLoop_coreEq bs fail events, ?_, ?_, ?_⟩
  · have h := flushed_join_aux bs fail events initLoop
    simpa [initLoop] using h
  · exact errorLog_aux bs fail events initLoop (by simp [initLoop])
  · exact fun st e => stepLoop_flush_clears bs fail st e

/-- Witness for `C7_store_failure_drops_batch`: with an always-failing
Store, a concrete step that flushes leaves an empty batch. -/
theorem C7_store_failure_drops_batch_witness :
    (stepLoop 2 (fun _ => true) (⟨[0], [], [], [], []⟩ : LoopState Nat)
      (.msg 1)).batch = [] :=
  (C7_store_failure_drops_batch 2 (fun _ => true) demoEvents).2.2.2
    ⟨[0], [], [], [], []⟩ (.msg 1) (by decide)

end Siscom
